import Mathlib

/-!
Verification development for the video-object-removal serverless handler
(`src/handler.py`).  The handler orchestrates: download of an input video,
ffmpeg-based preprocessing (frame-rate cap / duration trim), binding of job
parameters into a ComfyUI workflow document, submit-and-poll of the remote
engine, output-file resolution in the engine output directory, upload, and
working-directory cleanup.

All definitions below are shallow embeddings of the Python source.  External
collaborators (ffprobe/ffmpeg subprocesses, the HTTP client, the filesystem,
Python stdlib `Fraction`/`float` parsing) are modelled by their outcomes,
passed in as explicit parameters; rational numbers stand in for the Python
floats that only ever feed threshold comparisons.
-/

namespace VOR

/-! ## Media probe (`probe_video`, handler.py lines 89-125)

`probe_video` runs ffprobe, then extracts
  - fps: `for frac in (avg_frame_rate, r_frame_rate): try f = Fraction(frac);
    if f.numerator and f.denominator: fps = float(f); break; except: pass`
  - duration: `if fmt.get("duration") is not None: try: dur = float(...)
    except: dur = None`.

The stdlib `Fraction` constructor applied to the reported rational string is
an external collaborator: it is modelled by its outcome, `none` when the
field is missing (the source substitutes `"0/0"`, whose construction raises)
or when construction raises (unparseable text, zero denominator), and
`some (n, d)` when it yields numerator `n` and denominator `d`.  Likewise the
`float` parse of the duration field: `none` = field absent, `some none` =
field present but `float` raised, `some (some q)` = parsed to `q`. -/

/-- Outcome of constructing `Fraction` from a reported frame-rate field. -/
abbrev FracOutcome := Option (Int × Int)

/-- One step of the source's `for frac in (afr, rfr)` loop body: keep an
already found fps (`break`), otherwise accept this fraction when both its
numerator and denominator are nonzero (Python truthiness test
`if f.numerator and f.denominator`), converting via `float(f)`. -/
def fpsStep (acc : Option ℚ) (frac : FracOutcome) : Option ℚ :=
  match acc with
  | some f => some f
  | none =>
    match frac with
    | some (n, d) => if n ≠ 0 ∧ d ≠ 0 then some ((n : ℚ) / (d : ℚ)) else none
    | none => none

/-- `probe_video`: returns `(fps, duration)`, each absent on parse failure. -/
def probe_video (afr rfr : FracOutcome) (durField : Option (Option ℚ)) :
    Option ℚ × Option ℚ :=
  let fps := List.foldl fpsStep none [afr, rfr]
  let dur :=
    match durField with
    | none => none
    | some o => o
  (fps, dur)

/-! ## Preprocess policy (`preprocess_video`, handler.py lines 183-225)

`preprocess_video` probes the source, computes
  `need_fps := fps_in is not None and fps_in > fps_cap + 0.01`
  `need_trim := dur_in is not None and dur_in > max_seconds + 0.001`
and branches: neither → return the initial info record untouched (pass
through); trim only → `ffmpeg_trim_copy` (stream copy, `transcoded=False`,
`remuxed=True`) then `trimmed=True`; fps needed → `ffmpeg_downsample_encode`
(`transcoded=True`, `remuxed=False`) then `downsampled=True`,
`transcoded=True`, and `trimmed=True` exactly when `need_trim`.

The two ffmpeg subprocesses and the re-probe of the destination file are
collaborators; the re-probe outcome is the `post` parameter.  `strategy`
makes the branch taken by the source explicit. -/

/-- Probed properties of a media file: frame rate and duration, each possibly
undetermined. -/
structure MediaProfile where
  fps : Option ℚ
  dur : Option ℚ
  deriving Repr, DecidableEq

/-- The branch taken by `preprocess_video`. -/
inductive Strategy
  | passThrough
  | trimOnly
  | reencode
  deriving Repr, DecidableEq

/-- The info record assembled by `preprocess_video` (its Python dict). -/
structure PreInfo where
  fps_in : Option ℚ
  dur_in : Option ℚ
  downsampled : Bool
  trimmed : Bool
  transcoded : Bool
  remuxed : Bool
  path : String
  fps_out : Option ℚ
  dur_out : Option ℚ
  strategy : Strategy
  deriving Repr, DecidableEq

/-- `need_fps` test of `preprocess_video` (line 193). -/
def needFps (fpsIn : Option ℚ) (fpsCap : ℚ) : Bool :=
  match fpsIn with
  | some f => decide (f > fpsCap + 1 / 100)
  | none => false

/-- `need_trim` test of `preprocess_video` (line 194). -/
def needTrim (durIn : Option ℚ) (maxSeconds : ℚ) : Bool :=
  match durIn with
  | some d => decide (d > maxSeconds + 1 / 1000)
  | none => false

/-- `ffmpeg_trim_copy` result dict (lines 128-141): stream copy, so
`transcoded=False`, `remuxed=True`; `post` is the re-probe of `dst`. -/
def ffmpeg_trim_copy (info : PreInfo) (dst : String) (post : MediaProfile) :
    PreInfo :=
  { info with path := dst, fps_out := post.fps, dur_out := post.dur,
              transcoded := false, remuxed := true }

/-- `ffmpeg_downsample_encode` result dict (lines 144-180): re-encode, so
`transcoded=True`, `remuxed=False`; `post` is the re-probe of `dst`. -/
def ffmpeg_downsample_encode (info : PreInfo) (dst : String)
    (post : MediaProfile) : PreInfo :=
  { info with path := dst, fps_out := post.fps, dur_out := post.dur,
              transcoded := true, remuxed := false }

/-- `preprocess_video` decision logic.  `prof` is the probe of `src`; `post`
is the re-probe of `dst` performed by whichever ffmpeg helper runs. -/
def preprocess_video (src dst : String) (fpsCap maxSeconds : ℚ)
    (prof : MediaProfile) (post : MediaProfile) : PreInfo :=
  let nf := needFps prof.fps fpsCap
  let nt := needTrim prof.dur maxSeconds
  let info : PreInfo :=
    { fps_in := prof.fps, dur_in := prof.dur,
      downsampled := false, trimmed := false,
      transcoded := false, remuxed := false,
      path := src, fps_out := none, dur_out := none,
      strategy := .passThrough }
  if ¬nf ∧ ¬nt then
    info
  else if nt ∧ ¬nf then
    let out := ffmpeg_trim_copy info dst post
    { out with trimmed := true, strategy := .trimOnly }
  else
    let out := ffmpeg_downsample_encode info dst post
    { out with downsampled := true, transcoded := true,
               trimmed := nt, strategy := .reencode }

/-! ## Poll loop (`wait_until_done`, handler.py lines 277-290)

`wait_until_done` loops: query `comfy_get_history` (which raises on network
error or non-2xx via `raise_for_status`, lines 270-274 — the exception
propagates, there is no handler in the loop); if the prompt id is in the
history, return it when `status.completed` or `status_str == "success"`,
raise `RuntimeError` carrying the status when `status_str == "error"`; then
raise `TimeoutError` when elapsed wall-clock exceeds `timeout_sec`; else
sleep `poll` seconds and repeat.

Time is modelled as the elapsed seconds accumulator: each query is
instantaneous and each `time.sleep(poll)` advances it by `poll`, so the
timeout test at iteration `k` sees `elapsed = k * poll`.  The engine is
modelled by the per-iteration query outcomes, consumed in order. -/

/-- The `status` record of a history entry: its `completed` flag and its
`status_str` field. -/
structure StatusRec where
  completed : Bool
  statusStr : Option String
  deriving Repr, DecidableEq

/-- One iteration's query outcome: the HTTP query raised, or it returned a
history in which the prompt id is absent (`none`) or mapped to a status. -/
inductive Tick
  | queryFail (msg : String)
  | ok (entry : Option StatusRec)
  deriving Repr, DecidableEq

/-- `status.get("completed", False) or status.get("status_str") == "success"`. -/
def statusSuccess (s : StatusRec) : Bool :=
  s.completed || s.statusStr == some "success"

/-- `status.get("status_str") == "error"`. -/
def statusError (s : StatusRec) : Bool :=
  s.statusStr == some "error"

/-- How a run of the poll loop ends. -/
inductive WaitOutcome
  | completed (s : StatusRec)
  | engineError (s : StatusRec)
  | httpError (msg : String)
  | timeout (elapsed : Nat)
  | exhausted
  deriving Repr, DecidableEq

/-- `wait_until_done`: consumes query outcomes in order with the source's
check order (success, engine error, deadline, sleep).  `.exhausted` marks
running out of modelled outcomes, which the theorems rule out. -/
def wait_until_done : List Tick → Nat → Nat → Nat → WaitOutcome
  | [], _, _, _ => .exhausted
  | .queryFail msg :: _, _, _, _ => .httpError msg
  | .ok none :: rest, timeoutSec, poll, elapsed =>
    if elapsed > timeoutSec then .timeout elapsed
    else wait_until_done rest timeoutSec poll (elapsed + poll)
  | .ok (some s) :: rest, timeoutSec, poll, elapsed =>
    if statusSuccess s then .completed s
    else if statusError s then .engineError s
    else if elapsed > timeoutSec then .timeout elapsed
    else wait_until_done rest timeoutSec poll (elapsed + poll)

/-- A query outcome that keeps the loop running: a successful query whose
entry is absent or reports neither success nor an engine error. -/
def tickNonterminal : Tick → Bool
  | .queryFail _ => false
  | .ok none => true
  | .ok (some s) => !statusSuccess s && !statusError s

/-! ## Workflow binding (handler.py lines 352-361 and 410-425)

The handler reads the workflow JSON and patches exactly three nodes, each
looked up only by its fixed identifier and only when it carries an
`"inputs"` table:

    if "25" in wf and "inputs" in wf["25"]:
        wf["25"]["inputs"]["video"] = comfy_input_file.name
    if "30" in wf and "inputs" in wf["30"]:
        wf["30"]["inputs"]["string"] = remove_text
    if "13" in wf and "inputs" in wf["13"]:
        wf["13"]["inputs"]["filename_prefix"] = output_prefix

A JSON object is modelled as an association list in document order; Python
dict assignment replaces the value at an existing key in place and appends
a new key at the end. -/

/-- A workflow input-slot value. -/
inductive SlotVal
  | str (s : String)
  | num (n : Int)
  | link (node : String) (port : Nat)
  deriving Repr, DecidableEq

/-- A workflow node: its class-type tag and, when the node object carries an
`"inputs"` key, its input-slot table in document order. -/
structure WfNode where
  classType : String
  inputs : Option (List (String × SlotVal))
  deriving Repr, DecidableEq

/-- A workflow document: node identifier to node, in document order. -/
abbrev GraphDoc := List (String × WfNode)

/-- Python dict assignment `slots[k] = v`: replace the value at an existing
key in place, else append the new key. -/
def setSlot : List (String × SlotVal) → String → SlotVal →
    List (String × SlotVal)
  | [], k, v => [(k, v)]
  | p :: rest, k, v =>
    if p.1 == k then (k, v) :: rest else p :: setSlot rest k v

/-- One node's treatment under `if nid in wf and "inputs" in wf[nid]`:
matching identifier with an inputs table gets the slot assignment, anything
else is untouched. -/
def bindEntry (nid k : String) (v : SlotVal) (p : String × WfNode) :
    String × WfNode :=
  if p.1 == nid then
    match p.2.inputs with
    | some slots => (p.1, { p.2 with inputs := some (setSlot slots k v) })
    | none => p
  else p

/-- Apply one of the three slot assignments across the document. -/
def bindNode (doc : GraphDoc) (nid k : String) (v : SlotVal) : GraphDoc :=
  doc.map (bindEntry nid k v)

/-- The three assignments of handler.py lines 416-425, in source order. -/
def bindWorkflow (wf : GraphDoc) (videoName removeText outPfx : String) :
    GraphDoc :=
  let wf1 := bindNode wf "25" "video" (.str videoName)
  let wf2 := bindNode wf1 "30" "string" (.str removeText)
  bindNode wf2 "13" "filename_prefix" (.str outPfx)

/-- The binding step as the handler runs it: lines 416-425 contain no raise
and no lookup besides the three guarded identifier tests, so the step always
returns a document. -/
def bindStep (wf : GraphDoc) (videoName removeText outPfx : String) :
    Except String GraphDoc :=
  .ok (bindWorkflow wf videoName removeText outPfx)

/-- `wf[nid]` lookup (first entry with the identifier). -/
def findNode (wf : GraphDoc) (nid : String) : Option WfNode :=
  (wf.find? (fun p => p.1 == nid)).map Prod.snd

/-- `slots[k]` lookup inside a slot table. -/
def getSlot (slots : List (String × SlotVal)) (k : String) : Option SlotVal :=
  (slots.find? (fun p => p.1 == k)).map Prod.snd

/-- `wf[nid]["inputs"][k]` lookup. -/
def slotOf (wf : GraphDoc) (nid k : String) : Option SlotVal :=
  match findNode wf nid with
  | some n =>
    match n.inputs with
    | some slots => getSlot slots k
    | none => none
  | none => none

/-- Python `str.strip()`: drop leading and trailing whitespace. -/
def pyStrip (s : String) : String :=
  String.mk (((s.data.dropWhile Char.isWhitespace).reverse.dropWhile
    Char.isWhitespace).reverse)

/-- Python `a or b` over an optional string, where `None` and `""` are
falsy (handler.py line 360). -/
def orFalsy (a : Option String) (b : String) : String :=
  match a with
  | some s => if s == "" then b else s
  | none => b

/-- Line 360: `(params.get("remove_text") or inp.get("remove_text") or
"").strip() or "object"`. -/
def computeRemoveText (paramsRT topRT : Option String) : String :=
  if pyStrip (orFalsy paramsRT (orFalsy topRT "")) == "" then "object"
  else pyStrip (orFalsy paramsRT (orFalsy topRT ""))

/-! ## Output resolution (`find_latest_output`, handler.py lines 293-316)

The completed job's history (`result`, line 436) carries per-node output
metadata, but the handler's resolution step (line 443) calls only
`find_latest_output(output_prefix)`: list the output directory, keep names
with the job prefix and a `.mp4` suffix (case-insensitive), skip entries
whose `stat` raises, and keep the entry with the strictly largest
modification time seen so far (`best_mtime` starts at `-1`).  Raises when
the directory is missing or nothing matched. -/

/-- A directory entry as seen by `os.listdir` plus `stat`: `mtime = none`
when `stat` raised (the source skips such entries). -/
structure DirEntry where
  name : String
  mtime : Option Int
  deriving Repr, DecidableEq

/-- `str.lower()`: character-wise lower-casing. -/
def lowerStr (s : String) : String :=
  String.mk (s.data.map Char.toLower)

/-- `s.startswith(pre)` over the character list. -/
def strStarts (s pre : String) : Bool :=
  pre.data.isPrefixOf s.data

/-- `s.endswith(suf)` over the character list. -/
def strEnds (s suf : String) : Bool :=
  suf.data.isSuffixOf s.data

/-- `fn.startswith(output_prefix) and fn.lower().endswith(".mp4")`. -/
def matchesOutput (pfx fn : String) : Bool :=
  strStarts fn pfx && strEnds (lowerStr fn) ".mp4"

/-- Loop body of `find_latest_output`: accumulator is `(best, best_mtime)`. -/
def scanStep (pfx : String) (acc : Option String × Int) (e : DirEntry) :
    Option String × Int :=
  if matchesOutput pfx e.name then
    match e.mtime with
    | some mt => if mt > acc.2 then (some e.name, mt) else acc
    | none => acc
  else acc

/-- `find_latest_output`. -/
def find_latest_output (dirExists : Bool) (entries : List DirEntry)
    (pfx : String) : Except String String :=
  if dirExists = false then .error "missing output dir"
  else
    match (entries.foldl (scanStep pfx) (none, -1)).1 with
    | none => .error "no output mp4"
    | some f => .ok f

/-- One engine-reported output file record: filename, subfolder and the
storage-area tag. -/
structure OutputFileMeta where
  filename : String
  subfolder : String
  area : String
  deriving Repr, DecidableEq

/-- The engine-reported per-node outputs of the completed job. -/
structure HistoryOutputs where
  nodeOutputs : List (String × List OutputFileMeta)
  deriving Repr, DecidableEq

/-- The handler's output-resolution step (line 443): the completed job's
history `result` is in scope but the step calls only
`find_latest_output(output_prefix)` on the output directory. -/
def resolveOutput (hist : HistoryOutputs) (dirExists : Bool)
    (entries : List DirEntry) (pfx : String) : Except String String :=
  match hist with
  | _ => find_latest_output dirExists entries pfx

/-! ## Handler control flow around the working directory
(handler.py lines 372-382 and 474-476)

After parameter validation the handler runs:

    workdir = Path(f"/tmp/jobs/{job_id}"); workdir.mkdir(...)   # line 373
    s3 = s3_client()        # line 379: raises RuntimeError on missing env
    try:
        ... download, preprocess, workflow, submit, wait, find, upload ...
    finally:
        shutil.rmtree(workdir, ignore_errors=True)

Every stage outcome inside the `try` reaches the `finally`; an exception
from `s3_client()` does not, because that call sits between the directory
creation and the `try`.  The collaborator outcomes are the fields of
`RunEnv`; the returned Bool records whether the cleanup ran. -/

/-- Fatal conditions the staged part of the handler can raise. -/
inductive StageErr
  | configMissing
  | storage
  | transcode
  | workflowMissing
  | submitFailed
  | engineError (s : StatusRec)
  | httpError (msg : String)
  | jobTimeout (elapsed : Nat)
  | outputMissing (msg : String)
  | modelExhausted
  deriving Repr, DecidableEq

/-- Collaborator outcomes for one invocation that has created its working
directory. -/
structure RunEnv where
  s3ClientOk : Bool
  downloadOk : Bool
  preprocessOk : Bool
  workflowExists : Bool
  submitOk : Bool
  ticks : List Tick
  timeoutSec : Nat
  dirExists : Bool
  entries : List DirEntry
  uploadOk : Bool
  deriving Repr, DecidableEq

/-- The `try` block of the handler (lines 382-472): download, preprocess,
workflow load, submit, poll, output resolution, upload; the first fatal
condition aborts the block. -/
def handlerBody (env : RunEnv) (pfx : String) : Except StageErr Unit := do
  if env.downloadOk = false then throw .storage
  if env.preprocessOk = false then throw .transcode
  if env.workflowExists = false then throw .workflowMissing
  if env.submitOk = false then throw .submitFailed
  match wait_until_done env.ticks env.timeoutSec 1 0 with
  | .completed _ => pure ()
  | .engineError s => throw (.engineError s)
  | .httpError m => throw (.httpError m)
  | .timeout e => throw (.jobTimeout e)
  | .exhausted => throw .modelExhausted
  match find_latest_output env.dirExists env.entries pfx with
  | .error m => throw (.outputMissing m)
  | .ok _ => pure ()
  if env.uploadOk = false then throw .storage

/-- The handler from working-directory creation onward: `s3_client()` runs
between the `mkdir` and the `try`, so its failure skips the `finally`; the
Bool records whether `shutil.rmtree(workdir, ignore_errors=True)` ran. -/
def handlerRun (env : RunEnv) (pfx : String) :
    Except StageErr Unit × Bool :=
  if env.s3ClientOk = false then (.error .configMissing, false)
  else (handlerBody env pfx, true)

end VOR

/-! ## Theorems -/

namespace VOR

/-- C1: for every probed profile, the preprocessing decision is pass-through
iff neither the frame-rate cap (plus epsilon) nor the duration cap (plus
epsilon) is exceeded; and a pass-through decision keeps the input path and
has all four flags false. -/
theorem preprocess_passthrough_iff (src dst : String) (C M : ℚ)
    (prof post : MediaProfile) :
    ((preprocess_video src dst C M prof post).strategy = .passThrough ↔
      ¬(needFps prof.fps C = true) ∧ ¬(needTrim prof.dur M = true)) ∧
    ((preprocess_video src dst C M prof post).strategy = .passThrough →
      (preprocess_video src dst C M prof post).path = src ∧
      (preprocess_video src dst C M prof post).downsampled = false ∧
      (preprocess_video src dst C M prof post).trimmed = false ∧
      (preprocess_video src dst C M prof post).transcoded = false ∧
      (preprocess_video src dst C M prof post).remuxed = false) := by
  unfold preprocess_video
  rcases hf : needFps prof.fps C <;> rcases ht : needTrim prof.dur M <;>
    simp [ffmpeg_trim_copy, ffmpeg_downsample_encode]

/-- Witness for C1 at a concrete profile (fps 25, duration 10, caps 30/15:
pass-through). -/
theorem preprocess_passthrough_iff_witness :
    (preprocess_video "in.mp4" "out.mp4" 30 15
        ⟨some 25, some 10⟩ ⟨none, none⟩).strategy = Strategy.passThrough ∧
    (preprocess_video "in.mp4" "out.mp4" 30 15
        ⟨some 25, some 10⟩ ⟨none, none⟩).path = "in.mp4" := by
  have h := preprocess_passthrough_iff "in.mp4" "out.mp4" 30 15
    ⟨some 25, some 10⟩ ⟨none, none⟩
  have hf : ¬(needFps (some 25) 30 = true) := by norm_num [needFps]
  have ht : ¬(needTrim (some 10) 15 = true) := by norm_num [needTrim]
  exact ⟨h.1.mpr ⟨hf, ht⟩, (h.2 (h.1.mpr ⟨hf, ht⟩)).1⟩

/-- C7: a profile over the duration cap only yields the trim-only branch
with flags trimmed/transcoded/remuxed = true/false/true (and downsampled
false); a profile over the frame-rate cap yields the re-encode branch with
downsampled/transcoded/remuxed = true/true/false and trimmed exactly when
the duration cap was also exceeded. -/
theorem preprocess_branch_flags (src dst : String) (C M : ℚ)
    (prof post : MediaProfile) :
    (needTrim prof.dur M = true → needFps prof.fps C = false →
      (preprocess_video src dst C M prof post).strategy = .trimOnly ∧
      (preprocess_video src dst C M prof post).downsampled = false ∧
      (preprocess_video src dst C M prof post).trimmed = true ∧
      (preprocess_video src dst C M prof post).transcoded = false ∧
      (preprocess_video src dst C M prof post).remuxed = true) ∧
    (needFps prof.fps C = true →
      (preprocess_video src dst C M prof post).strategy = .reencode ∧
      (preprocess_video src dst C M prof post).downsampled = true ∧
      (preprocess_video src dst C M prof post).transcoded = true ∧
      (preprocess_video src dst C M prof post).remuxed = false ∧
      (preprocess_video src dst C M prof post).trimmed
        = needTrim prof.dur M) := by
  unfold preprocess_video
  rcases hf : needFps prof.fps C <;> rcases ht : needTrim prof.dur M <;>
    simp [ffmpeg_trim_copy, ffmpeg_downsample_encode]

/-- Witness for C7: duration 20 over the max 15 with fps 24 under the cap 30
takes the trim-only branch; fps 60 over the cap takes the re-encode branch
with trimmed set. -/
theorem preprocess_branch_flags_witness :
    (preprocess_video "a.mp4" "b.mp4" 30 15
        ⟨some 24, some 20⟩ ⟨some 24, some 15⟩).strategy = Strategy.trimOnly ∧
    (preprocess_video "a.mp4" "b.mp4" 30 15
        ⟨some 60, some 20⟩ ⟨some 30, some 15⟩).strategy = Strategy.reencode ∧
    (preprocess_video "a.mp4" "b.mp4" 30 15
        ⟨some 60, some 20⟩ ⟨some 30, some 15⟩).trimmed = true := by
  have h1 := (preprocess_branch_flags "a.mp4" "b.mp4" 30 15
    ⟨some 24, some 20⟩ ⟨some 24, some 15⟩).1
    (by norm_num [needTrim]) (by norm_num [needFps])
  have h2 := (preprocess_branch_flags "a.mp4" "b.mp4" 30 15
    ⟨some 60, some 20⟩ ⟨some 30, some 15⟩).2 (by norm_num [needFps])
  refine ⟨h1.1, h2.1, ?_⟩
  rw [h2.2.2.2.2]
  norm_num [needTrim]

/-- C9: the probed frame rate comes from the average-rate rational when both
its parts are nonzero; otherwise from the real-time-rate rational under the
same test; parse failure of a field leaves it absent without disturbing the
other field (fps is a function of the two rate fields only, duration of the
duration field only, and a failed duration parse yields none). -/
theorem probe_video_fields (afr rfr : FracOutcome)
    (durField : Option (Option ℚ)) :
    (∀ n d : Int, afr = some (n, d) → n ≠ 0 → d ≠ 0 →
      (probe_video afr rfr durField).1 = some ((n : ℚ) / (d : ℚ))) ∧
    ((afr = none ∨ ∃ n d : Int, afr = some (n, d) ∧ (n = 0 ∨ d = 0)) →
      (probe_video afr rfr durField).1 = fpsStep none rfr) ∧
    (∀ durField2 : Option (Option ℚ),
      (probe_video afr rfr durField).1 = (probe_video afr rfr durField2).1) ∧
    (∀ afr2 rfr2 : FracOutcome,
      (probe_video afr rfr durField).2 = (probe_video afr2 rfr2 durField).2) ∧
    (durField = some none → (probe_video afr rfr durField).2 = none) := by
  refine ⟨?_, ?_, ?_, ?_, ?_⟩
  · rintro n d rfl hn hd
    simp [probe_video, fpsStep, hn, hd]
  · rintro (rfl | ⟨n, d, rfl, hnd⟩)
    · simp [probe_video, fpsStep]
    · have : ¬(n ≠ 0 ∧ d ≠ 0) := by tauto
      simp only [probe_video, List.foldl]
      rw [show fpsStep none (some (n, d)) = none by simp [fpsStep, this]]
  · intro durField2
    cases durField <;> cases durField2 <;> simp [probe_video]
  · intro afr2 rfr2
    simp [probe_video]
  · rintro rfl
    simp [probe_video]

/-- Witness for C9: average rate 30000/1001 usable; a zero-numerator average
rate falls back to the real-time rate; an unparseable duration is absent. -/
theorem probe_video_fields_witness :
    (probe_video (some (30000, 1001)) (some (30, 1)) (some (some 12))).1
      = some ((30000 : ℚ) / 1001) ∧
    (probe_video (some (0, 1)) (some (30, 1)) (some (some 12))).1
      = fpsStep none (some (30, 1)) ∧
    (probe_video (some (30, 1)) (some (30, 1)) (some none)).2 = none := by
  refine ⟨?_, ?_, ?_⟩
  · exact (probe_video_fields (some (30000, 1001)) (some (30, 1))
      (some (some 12))).1 30000 1001 rfl (by decide) (by decide)
  · exact (probe_video_fields (some (0, 1)) (some (30, 1))
      (some (some 12))).2.1 (Or.inr ⟨0, 1, rfl, Or.inl rfl⟩)
  · exact (probe_video_fields (some (30, 1)) (some (30, 1))
      (some none)).2.2.2.2 rfl

/-- Running the poll loop past a nonterminal query outcome that does not
trip the deadline just advances elapsed time by one poll interval. -/
theorem wait_step_nonterminal (t : Tick) (rest : List Tick) (T p e : Nat)
    (hnt : tickNonterminal t = true) (he : e ≤ T) :
    wait_until_done (t :: rest) T p e = wait_until_done rest T p (e + p) := by
  cases t with
  | queryFail msg => simp [tickNonterminal] at hnt
  | ok entry =>
    cases entry with
    | none =>
      simp only [wait_until_done]
      rw [if_neg (by omega)]
    | some s =>
      have hs : statusSuccess s = false ∧ statusError s = false := by
        simpa [tickNonterminal] using hnt
      simp only [wait_until_done, hs.1, hs.2]
      simp only [Bool.false_eq_true, if_false]
      rw [if_neg (by omega)]

/-- Skipping a run of nonterminal query outcomes, none of which reaches the
deadline, advances elapsed time by one poll interval per outcome. -/
theorem wait_skip (pre rest : List Tick) (T p : Nat) :
    ∀ e : Nat, (∀ t ∈ pre, tickNonterminal t = true) →
    (∀ j < pre.length, e + j * p ≤ T) →
    wait_until_done (pre ++ rest) T p e
      = wait_until_done rest T p (e + pre.length * p) := by
  induction pre with
  | nil => intro e _ _; simp
  | cons t pre ih =>
    intro e hnt hT
    have he : e ≤ T := by simpa using hT 0 (by simp)
    rw [List.cons_append,
      wait_step_nonterminal t (pre ++ rest) T p e (hnt t (by simp)) he,
      ih (e + p) (fun u hu => hnt u (by simp [hu]))
        (fun j hj => by
          have := hT (j + 1) (by simpa using Nat.succ_lt_succ hj)
          calc e + p + j * p = e + (j + 1) * p := by ring
            _ ≤ T := this)]
    congr 1
    simp [List.length_cons]
    ring

/-- A run of nonterminal query outcomes long enough to cross the deadline
ends in a timeout whose elapsed time lands in `(T, T + p]`. -/
theorem wait_timeout_general (ticks : List Tick) (T p : Nat) :
    ∀ e : Nat, 0 < p → (∀ t ∈ ticks, tickNonterminal t = true) →
    ticks ≠ [] → T < e + (ticks.length - 1) * p → e ≤ T + p →
    ∃ e2, wait_until_done ticks T p e = .timeout e2 ∧ T < e2 ∧ e2 ≤ T + p := by
  induction ticks with
  | nil => intro e _ _ hne _ _; exact absurd rfl hne
  | cons t rest ih =>
    intro e hp hnt _ hlong he
    have hnt0 : tickNonterminal t = true := hnt t (by simp)
    by_cases heT : e > T
    · refine ⟨e, ?_, heT, he⟩
      cases t with
      | queryFail msg => simp [tickNonterminal] at hnt0
      | ok entry =>
        cases entry with
        | none => simp [wait_until_done, heT]
        | some s =>
          have hs : statusSuccess s = false ∧ statusError s = false := by
            simpa [tickNonterminal] using hnt0
          simp [wait_until_done, hs.1, hs.2, heT]
    · push_neg at heT
      rw [wait_step_nonterminal t rest T p e (hnt t (by simp)) heT]
      have hrest : rest ≠ [] := by
        rintro rfl
        simp at hlong
        omega
      refine ih (e + p) hp (fun u hu => hnt u (by simp [hu])) hrest ?_ (by omega)
      have h1 : rest.length - 1 + 1 = rest.length := by
        cases rest with
        | nil => exact absurd rfl hrest
        | cons a l => simp
      have h2 : (t :: rest).length - 1 = rest.length := by simp
      rw [h2] at hlong
      calc T < e + rest.length * p := hlong
        _ = e + (rest.length - 1 + 1) * p := by rw [h1]
        _ = e + p + (rest.length - 1) * p := by ring

/-- C6: the poll loop resolves to completed with the status payload when a
query reports success (after any deadline-respecting run of nonterminal
outcomes); resolves to an engine-error failure carrying the status payload
when a query reports status "error"; and when every outcome is nonterminal
and the modelled run crosses the deadline, resolves to a timeout whose
elapsed time exceeds the deadline by at most one poll interval. -/
theorem wait_until_done_outcomes (T p : Nat) :
    (∀ (pre rest : List Tick) (s : StatusRec),
      (∀ t ∈ pre, tickNonterminal t = true) →
      (∀ j < pre.length, j * p ≤ T) →
      statusSuccess s = true →
      wait_until_done (pre ++ Tick.ok (some s) :: rest) T p 0
        = .completed s) ∧
    (∀ (pre rest : List Tick) (s : StatusRec),
      (∀ t ∈ pre, tickNonterminal t = true) →
      (∀ j < pre.length, j * p ≤ T) →
      statusSuccess s = false → statusError s = true →
      wait_until_done (pre ++ Tick.ok (some s) :: rest) T p 0
        = .engineError s) ∧
    (∀ ticks : List Tick, 0 < p →
      (∀ t ∈ ticks, tickNonterminal t = true) →
      ticks ≠ [] → T < (ticks.length - 1) * p →
      ∃ e2, wait_until_done ticks T p 0 = .timeout e2 ∧
        T < e2 ∧ e2 ≤ T + p) := by
  refine ⟨?_, ?_, ?_⟩
  · intro pre rest s hnt hT hs
    rw [wait_skip pre (Tick.ok (some s) :: rest) T p 0 hnt
      (fun j hj => by simpa using hT j hj)]
    simp [wait_until_done, hs]
  · intro pre rest s hns hT hs herr
    rw [wait_skip pre (Tick.ok (some s) :: rest) T p 0 hns
      (fun j hj => by simpa using hT j hj)]
    simp [wait_until_done, hs, herr]
  · intro ticks hp hnt hne hlong
    exact wait_timeout_general ticks T p 0 hp hnt hne (by omega) (by omega)

/-- Witness for C6: a pending/running prefix then success completes; an
error status fails; three nonterminal outcomes against deadline 1 with poll
interval 1 time out at elapsed 2 ∈ (1, 2]. -/
theorem wait_until_done_outcomes_witness :
    wait_until_done
        [Tick.ok none, Tick.ok (some ⟨false, some "running"⟩),
         Tick.ok (some ⟨true, some "success"⟩)] 3600 1 0
      = WaitOutcome.completed ⟨true, some "success"⟩ ∧
    wait_until_done
        [Tick.ok none, Tick.ok (some ⟨false, some "error"⟩)] 3600 1 0
      = WaitOutcome.engineError ⟨false, some "error"⟩ ∧
    (∃ e2, wait_until_done
        [Tick.ok none, Tick.ok none, Tick.ok none] 1 1 0
      = WaitOutcome.timeout e2 ∧ 1 < e2 ∧ e2 ≤ 1 + 1) := by
  refine ⟨?_, ?_, ?_⟩
  · exact (wait_until_done_outcomes 3600 1).1
      [Tick.ok none, Tick.ok (some ⟨false, some "running"⟩)] []
      ⟨true, some "success"⟩ (by decide) (by intro j hj; simp only [List.length] at hj; omega)
      (by decide)
  · exact (wait_until_done_outcomes 3600 1).2.1
      [Tick.ok none] [] ⟨false, some "error"⟩ (by decide)
      (by intro j hj; simp only [List.length] at hj; omega) (by decide) (by decide)
  · exact (wait_until_done_outcomes 1 1).2.2
      [Tick.ok none, Tick.ok none, Tick.ok none] (by decide) (by decide)
      (by decide) (by decide)

/-- C2 counterexample: a run whose first status query fails (network error)
and whose second query would report success ends immediately with the query
failure — the failure is not retried on the next tick, refuting the claim
that the run continues to completion. -/
theorem wait_query_failure_counterexample :
    wait_until_done
        [Tick.queryFail "connection refused",
         Tick.ok (some ⟨true, some "success"⟩)] 3600 1 0
      = WaitOutcome.httpError "connection refused" ∧
    wait_until_done
        [Tick.queryFail "connection refused",
         Tick.ok (some ⟨true, some "success"⟩)] 3600 1 0
      ≠ WaitOutcome.completed ⟨true, some "success"⟩ := by
  exact ⟨rfl, by decide⟩

/-- C2 amended: a status-query failure at any reachable point of the poll
loop — first tick or after any deadline-respecting run of nonterminal
outcomes — immediately terminates the run as a fatal error; it is never
retried.  The loop thus ends on success, engine error, deadline, or the
first query failure. -/
theorem wait_query_failure_fatal (pre rest : List Tick) (msg : String)
    (T p : Nat) (hnt : ∀ t ∈ pre, tickNonterminal t = true)
    (hT : ∀ j < pre.length, j * p ≤ T) :
    wait_until_done (pre ++ Tick.queryFail msg :: rest) T p 0
      = .httpError msg := by
  rw [wait_skip pre (Tick.queryFail msg :: rest) T p 0 hnt
    (fun j hj => by simpa using hT j hj)]
  rfl

/-- Witness for the amended C2: two good nonterminal polls, then a network
failure, with the deadline far away — the run ends with the query failure. -/
theorem wait_query_failure_fatal_witness :
    wait_until_done
        [Tick.ok none, Tick.ok (some ⟨false, some "running"⟩),
         Tick.queryFail "gateway timeout",
         Tick.ok (some ⟨true, some "success"⟩)] 3600 1 0
      = WaitOutcome.httpError "gateway timeout" :=
  wait_query_failure_fatal
    [Tick.ok none, Tick.ok (some ⟨false, some "running"⟩)]
    [Tick.ok (some ⟨true, some "success"⟩)] "gateway timeout" 3600 1
    (by decide) (by intro j hj; simp only [List.length] at hj; omega)

/-- `bindEntry` never changes an entry's identifier. -/
theorem bindEntry_fst (nid k : String) (v : SlotVal) (p : String × WfNode) :
    (bindEntry nid k v p).1 = p.1 := by
  unfold bindEntry
  by_cases h : p.1 == nid
  · simp only [h, if_true]
    cases p.2.inputs <;> rfl
  · simp [h]

/-- `bindEntry` never changes an entry's class-type tag. -/
theorem bindEntry_classType (nid k : String) (v : SlotVal)
    (p : String × WfNode) : (bindEntry nid k v p).2.classType
      = p.2.classType := by
  unfold bindEntry
  by_cases h : p.1 == nid
  · simp only [h, if_true]
    cases p.2.inputs <;> rfl
  · simp [h]

/-- `bindEntry` leaves entries with other identifiers untouched. -/
theorem bindEntry_ne (nid k : String) (v : SlotVal) (p : String × WfNode)
    (h : ¬p.1 = nid) : bindEntry nid k v p = p := by
  unfold bindEntry
  simp [h]

/-- `bindNode` preserves the identifier sequence of the document. -/
theorem bindNode_fsts (doc : GraphDoc) (nid k : String) (v : SlotVal) :
    (bindNode doc nid k v).map Prod.fst = doc.map Prod.fst := by
  unfold bindNode
  induction doc with
  | nil => rfl
  | cons p rest ih => simp [bindEntry_fst, ih]

/-- Looking up an identifier other than the bound one is unchanged. -/
theorem findNode_bindNode_other (doc : GraphDoc) (nid mid k : String)
    (v : SlotVal) (h : ¬nid = mid) :
    findNode (bindNode doc mid k v) nid = findNode doc nid := by
  induction doc with
  | nil => rfl
  | cons p rest ih =>
    by_cases hp : p.1 = nid
    · have hne : ¬p.1 = mid := by rw [hp]; exact h
      simp [findNode, bindNode, List.find?, bindEntry_ne mid k v p hne,
        beq_iff_eq, hp]
    · have h1 : ((bindEntry mid k v p).1 == nid) = false := by
        rw [bindEntry_fst]
        simpa [beq_iff_eq] using hp
      have h2 : (p.1 == nid) = false := by
        simpa [beq_iff_eq] using hp
      simp only [findNode, bindNode, List.map, List.find?, h1, h2]
      exact ih

/-- Looking up the bound identifier yields the original node with the slot
assignment applied to its inputs table when it has one. -/
theorem findNode_bindNode_self (doc : GraphDoc) (nid k : String)
    (v : SlotVal) :
    findNode (bindNode doc nid k v) nid = (findNode doc nid).map
      (fun n =>
        match n.inputs with
        | some slots => { n with inputs := some (setSlot slots k v) }
        | none => n) := by
  induction doc with
  | nil => rfl
  | cons p rest ih =>
    by_cases hp : p.1 = nid
    · have hb : (p.1 == nid) = true := by simpa [beq_iff_eq] using hp
      have h1 : ((bindEntry nid k v p).1 == nid) = true := by
        rw [bindEntry_fst]; exact hb
      simp only [findNode, bindNode, List.map, List.find?, h1, hb,
        Option.map_some]
      unfold bindEntry
      rw [if_pos hb]
      cases hi : p.2.inputs <;> simp [hi]
    · have h2 : (p.1 == nid) = false := by
        simpa [beq_iff_eq] using hp
      have h1 : ((bindEntry nid k v p).1 == nid) = false := by
        rw [bindEntry_fst]; exact h2
      simp only [findNode, bindNode, List.map, List.find?, h1, h2]
      exact ih

/-- Assigning one slot key leaves the others' lookups unchanged. -/
theorem getSlot_setSlot_other (slots : List (String × SlotVal))
    (k k2 : String) (v : SlotVal) (h : ¬k2 = k) :
    getSlot (setSlot slots k v) k2 = getSlot slots k2 := by
  induction slots with
  | nil => simp [setSlot, getSlot, List.find?, show (k == k2) = false by
      simpa [beq_iff_eq] using fun hh => h hh.symm]
  | cons p rest ih =>
    by_cases hp : p.1 = k
    · have hb : (p.1 == k) = true := by simpa [beq_iff_eq] using hp
      have hk2 : (p.1 == k2) = false := by
        rw [hp]
        simpa [beq_iff_eq] using fun hh => h hh.symm
      have hk2b : (k == k2) = false := by
        simpa [beq_iff_eq] using fun hh => h hh.symm
      simp [setSlot, getSlot, List.find?, hb, hk2, hk2b]
    · have hb : (p.1 == k) = false := by simpa [beq_iff_eq] using hp
      by_cases hq : p.1 = k2
      · have hq2 : (p.1 == k2) = true := by
          simpa [beq_iff_eq] using hq
        simp [setSlot, getSlot, List.find?, hb, hq2]
      · have hq2 : (p.1 == k2) = false := by
          simpa [beq_iff_eq] using hq
        simpa [setSlot, getSlot, List.find?, hb, hq2] using ih

/-- Assigning a slot key makes its lookup the assigned value. -/
theorem getSlot_setSlot_self (slots : List (String × SlotVal))
    (k : String) (v : SlotVal) : getSlot (setSlot slots k v) k = some v := by
  induction slots with
  | nil => simp [setSlot, getSlot, List.find?]
  | cons p rest ih =>
    by_cases hp : p.1 = k
    · have hb : (p.1 == k) = true := by simpa [beq_iff_eq] using hp
      simp [setSlot, getSlot, List.find?, hb]
    · have hb : (p.1 == k) = false := by simpa [beq_iff_eq] using hp
      simpa [setSlot, getSlot, List.find?, hb] using ih

/-- A slot other than the one bound by `bindNode` reads the same before and
after. -/
theorem slotOf_bindNode_other (doc : GraphDoc) (nid mid k sk : String)
    (v : SlotVal) (h : ¬(nid = mid ∧ k = sk)) :
    slotOf (bindNode doc mid sk v) nid k = slotOf doc nid k := by
  by_cases hn : nid = mid
  · subst hn
    have hk : ¬k = sk := fun hk => h ⟨rfl, hk⟩
    unfold slotOf
    rw [findNode_bindNode_self]
    cases hf : findNode doc nid with
    | none => rfl
    | some n =>
      cases hi : n.inputs with
      | none => simp [hi]
      | some slots => simp [hi, getSlot_setSlot_other slots sk k v hk]
  · unfold slotOf
    rw [findNode_bindNode_other doc nid mid sk v hn]

/-- The slot bound by `bindNode` reads the assigned value whenever the node
exists and has an inputs table. -/
theorem slotOf_bindNode_self (doc : GraphDoc) (nid sk : String) (v : SlotVal)
    (n : WfNode) (slots : List (String × SlotVal))
    (hf : findNode doc nid = some n) (hi : n.inputs = some slots) :
    slotOf (bindNode doc nid sk v) nid sk = some v := by
  unfold slotOf
  rw [findNode_bindNode_self, hf]
  simp [hi, getSlot_setSlot_self]

/-- `bindNode` preserves every node's class-type tag. -/
theorem findNode_bindNode_classType (doc : GraphDoc) (mid k : String)
    (v : SlotVal) (nid : String) :
    (findNode (bindNode doc mid k v) nid).map WfNode.classType
      = (findNode doc nid).map WfNode.classType := by
  by_cases hn : nid = mid
  · subst hn
    rw [findNode_bindNode_self]
    cases findNode doc nid with
    | none => rfl
    | some n => cases hi : n.inputs <;> simp [hi]
  · rw [findNode_bindNode_other doc nid mid k v hn]

/-- A node absent from the document stays absent under `bindNode`. -/
theorem findNode_bindNode_none (doc : GraphDoc) (mid k : String)
    (v : SlotVal) (nid : String) (h : findNode doc nid = none) :
    findNode (bindNode doc mid k v) nid = none := by
  by_cases hn : nid = mid
  · subst hn
    rw [findNode_bindNode_self, h]
    rfl
  · rw [findNode_bindNode_other doc nid mid k v hn]
    exact h

/-- A node without an inputs table is untouched by `bindNode`. -/
theorem findNode_bindNode_noInputs (doc : GraphDoc) (mid k : String)
    (v : SlotVal) (nid : String) (n : WfNode)
    (h : findNode doc nid = some n) (hi : n.inputs = none) :
    findNode (bindNode doc mid k v) nid = some n := by
  by_cases hn : nid = mid
  · subst hn
    rw [findNode_bindNode_self, h]
    simp [hi]
  · rw [findNode_bindNode_other doc nid mid k v hn]
    exact h

/-- C8: binding preserves the identifier sequence (hence node count, node
ordering and the identifier set), every node with a non-targeted
identifier, every node's class-type tag, and every input slot other than
the three bound ones (`"25"/"video"`, `"30"/"string"`,
`"13"/"filename_prefix"`). -/
theorem bindWorkflow_frame (wf : GraphDoc)
    (videoName removeText outPfx : String) :
    (bindWorkflow wf videoName removeText outPfx).map Prod.fst
      = wf.map Prod.fst ∧
    (bindWorkflow wf videoName removeText outPfx).length = wf.length ∧
    (∀ nid, ¬nid = "25" → ¬nid = "30" → ¬nid = "13" →
      findNode (bindWorkflow wf videoName removeText outPfx) nid
        = findNode wf nid) ∧
    (∀ nid, (findNode (bindWorkflow wf videoName removeText outPfx) nid).map
        WfNode.classType = (findNode wf nid).map WfNode.classType) ∧
    (∀ nid k, ¬(nid = "25" ∧ k = "video") → ¬(nid = "30" ∧ k = "string") →
      ¬(nid = "13" ∧ k = "filename_prefix") →
      slotOf (bindWorkflow wf videoName removeText outPfx) nid k
        = slotOf wf nid k) := by
  unfold bindWorkflow
  refine ⟨?_, ?_, ?_, ?_, ?_⟩
  · rw [bindNode_fsts, bindNode_fsts, bindNode_fsts]
  · have h := congrArg List.length
      (by rw [bindNode_fsts, bindNode_fsts, bindNode_fsts] :
        (bindNode (bindNode (bindNode wf "25" "video" (.str videoName))
            "30" "string" (.str removeText)) "13" "filename_prefix"
            (.str outPfx)).map Prod.fst = wf.map Prod.fst)
    simpa using h
  · intro nid h25 h30 h13
    rw [findNode_bindNode_other _ nid _ _ _ h13,
      findNode_bindNode_other _ nid _ _ _ h30,
      findNode_bindNode_other _ nid _ _ _ h25]
  · intro nid
    rw [findNode_bindNode_classType, findNode_bindNode_classType,
      findNode_bindNode_classType]
  · intro nid k h25 h30 h13
    rw [slotOf_bindNode_other _ nid _ k _ _ h13,
      slotOf_bindNode_other _ nid _ k _ _ h30,
      slotOf_bindNode_other _ nid _ k _ _ h25]

/-- Witness for C8 on a two-node document: identifiers and an untargeted
slot of the loader node survive binding. -/
theorem bindWorkflow_frame_witness :
    (bindWorkflow
        [("7", ⟨"KSampler", some [("frames", SlotVal.num 81)]⟩),
         ("25", ⟨"VHS_LoadVideo",
            some [("video", SlotVal.str "old.mp4"),
                  ("frame_load_cap", SlotVal.num 0)]⟩)]
        "v.mp4" "cat" "job1").map Prod.fst = ["7", "25"] ∧
    slotOf (bindWorkflow
        [("7", ⟨"KSampler", some [("frames", SlotVal.num 81)]⟩),
         ("25", ⟨"VHS_LoadVideo",
            some [("video", SlotVal.str "old.mp4"),
                  ("frame_load_cap", SlotVal.num 0)]⟩)]
        "v.mp4" "cat" "job1") "25" "frame_load_cap"
      = some (SlotVal.num 0) := by
  have h := bindWorkflow_frame
    [("7", ⟨"KSampler", some [("frames", SlotVal.num 81)]⟩),
     ("25", ⟨"VHS_LoadVideo",
        some [("video", SlotVal.str "old.mp4"),
              ("frame_load_cap", SlotVal.num 0)]⟩)]
    "v.mp4" "cat" "job1"
  refine ⟨h.1.trans (by decide), ?_⟩
  have h2 := h.2.2.2.2 "25" "frame_load_cap"
    (by rintro ⟨-, h⟩; exact absurd h (by decide))
    (by rintro ⟨h, -⟩; exact absurd h (by decide))
    (by rintro ⟨h, -⟩; exact absurd h (by decide))
  exact h2.trans (by decide)

/-- C3 counterexample: a document with no `"25"` video-loader node at all
(only the instruction node) — binding succeeds, returns the document with
only the instruction slot updated, and raises nothing, refuting the claim
that an undiscoverable required node is a fatal, identifiable error. -/
theorem bind_missing_loader_counterexample :
    bindStep
        [("30", ⟨"Primitive string multiline",
            some [("string", SlotVal.str "old")]⟩)] "v.mp4" "cat" "job1"
      = Except.ok
        [("30", ⟨"Primitive string multiline",
            some [("string", SlotVal.str "cat")]⟩)] ∧
    (bindStep
        [("30", ⟨"Primitive string multiline",
            some [("string", SlotVal.str "old")]⟩)] "v.mp4" "cat"
        "job1").isOk = true := by
  exact ⟨rfl, rfl⟩

/-- C3 amended: the binding step locates each of the three nodes only by
its fixed identifier (there is no capability/type-tag fallback) and never
raises: when any of the targeted nodes — the video loader included — is
absent or lacks an inputs table, binding succeeds without mutating it. -/
theorem bind_nodes_all_optional (wf : GraphDoc)
    (videoName removeText outPfx nid : String) (n : WfNode) :
    bindStep wf videoName removeText outPfx
      = Except.ok (bindWorkflow wf videoName removeText outPfx) ∧
    (findNode wf nid = none →
      findNode (bindWorkflow wf videoName removeText outPfx) nid = none) ∧
    (findNode wf nid = some n → n.inputs = none →
      findNode (bindWorkflow wf videoName removeText outPfx) nid
        = some n) := by
  refine ⟨rfl, ?_, ?_⟩
  · intro h
    unfold bindWorkflow
    exact findNode_bindNode_none _ _ _ _ _
      (findNode_bindNode_none _ _ _ _ _
        (findNode_bindNode_none _ _ _ _ _ h))
  · intro h hi
    unfold bindWorkflow
    exact findNode_bindNode_noInputs _ _ _ _ _ _
      (findNode_bindNode_noInputs _ _ _ _ _ _
        (findNode_bindNode_noInputs _ _ _ _ _ _ h hi) hi) hi

/-- Witness for the amended C3: a document whose only node is an
inputs-less writer; the absent loader stays absent and binding succeeds. -/
theorem bind_nodes_all_optional_witness :
    bindStep [("13", ⟨"VHS_VideoCombine", none⟩)] "v.mp4" "cat" "job1"
      = Except.ok (bindWorkflow [("13", ⟨"VHS_VideoCombine", none⟩)]
          "v.mp4" "cat" "job1") ∧
    findNode (bindWorkflow [("13", ⟨"VHS_VideoCombine", none⟩)]
        "v.mp4" "cat" "job1") "25" = none := by
  have h := bind_nodes_all_optional [("13", ⟨"VHS_VideoCombine", none⟩)]
    "v.mp4" "cat" "job1" "25" ⟨"VHS_VideoCombine", none⟩
  exact ⟨h.1, h.2.1 (by decide)⟩

/-- A chain of falsy-or steps whose inputs all strip to the empty string
itself strips to the empty string. -/
theorem trim_orFalsy (a : Option String) (b : String)
    (ha : a = none ∨ ∃ s, a = some s ∧ pyStrip s = "")
    (hb : pyStrip b = "") :
    pyStrip (orFalsy a b) = "" := by
  rcases ha with rfl | ⟨s, rfl, hs⟩
  · exact hb
  · unfold orFalsy
    by_cases h : (s == "") = true
    · simp [h, hb]
    · simp [h, hs]

/-- C10: when both the `params.remove_text` field and the top-level
`remove_text` fallback are missing, empty, or whitespace-only, the handler
computes the default instruction `"object"` without failing, and binding
writes exactly that default into the instruction node's `"string"` slot
whenever the node exists with an inputs table. -/
theorem removeText_default (paramsRT topRT : Option String)
    (hp : paramsRT = none ∨ ∃ s, paramsRT = some s ∧ pyStrip s = "")
    (ht : topRT = none ∨ ∃ s, topRT = some s ∧ pyStrip s = "") :
    computeRemoveText paramsRT topRT = "object" ∧
    ∀ (wf : GraphDoc) (videoName outPfx : String) (n : WfNode)
      (slots : List (String × SlotVal)),
      findNode wf "30" = some n → n.inputs = some slots →
      slotOf (bindWorkflow wf videoName (computeRemoveText paramsRT topRT)
          outPfx) "30" "string" = some (SlotVal.str "object") := by
  have htrim : pyStrip (orFalsy paramsRT (orFalsy topRT "")) = "" :=
    trim_orFalsy paramsRT (orFalsy topRT "") hp
      (trim_orFalsy topRT "" ht (by decide))
  have hval : computeRemoveText paramsRT topRT = "object" := by
    unfold computeRemoveText
    rw [htrim]
    decide
  refine ⟨hval, ?_⟩
  intro wf videoName outPfx n slots hf hi
  unfold bindWorkflow
  rw [slotOf_bindNode_other _ "30" "13" "string" _ _
    (by rintro ⟨h, -⟩; exact absurd h (by decide))]
  rw [slotOf_bindNode_self _ "30" "string" _ n slots
    (by rw [findNode_bindNode_other wf "30" "25" _ _ (by decide)]; exact hf)
    hi]
  rw [hval]

/-- Witness for C10: a whitespace-only `params.remove_text` with no
top-level fallback yields `"object"`, bound into a concrete document's
instruction node. -/
theorem removeText_default_witness :
    computeRemoveText (some "   ") none = "object" ∧
    slotOf (bindWorkflow
        [("30", ⟨"Primitive string multiline",
            some [("string", SlotVal.str "old")]⟩)]
        "v.mp4" (computeRemoveText (some "   ") none) "job1") "30" "string"
      = some (SlotVal.str "object") := by
  have h := removeText_default (some "   ") none
    (Or.inr ⟨"   ", rfl, by decide⟩) (Or.inl rfl)
  exact ⟨h.1, h.2
    [("30", ⟨"Primitive string multiline",
        some [("string", SlotVal.str "old")]⟩)]
    "v.mp4" "job1" ⟨"Primitive string multiline",
        some [("string", SlotVal.str "old")]⟩
    [("string", SlotVal.str "old")] (by decide) rfl⟩

/-- Invariant of the `find_latest_output` scan: the final best mtime never
drops below the starting one; the final best is either the unchanged start
or comes from a matching entry whose stat succeeded; and it dominates the
mtime of every matching entry with a successful stat. -/
theorem scanFold_spec (pfx : String) (entries : List DirEntry) :
    ∀ (b : Option String) (bm : Int),
    bm ≤ (entries.foldl (scanStep pfx) (b, bm)).2 ∧
    ((entries.foldl (scanStep pfx) (b, bm)).1 = b ∧
        (entries.foldl (scanStep pfx) (b, bm)).2 = bm ∨
      ∃ e ∈ entries, (entries.foldl (scanStep pfx) (b, bm)).1 = some e.name ∧
        e.mtime = some (entries.foldl (scanStep pfx) (b, bm)).2 ∧
        matchesOutput pfx e.name = true) ∧
    (∀ e ∈ entries, matchesOutput pfx e.name = true →
      ∀ mt : Int, e.mtime = some mt →
        mt ≤ (entries.foldl (scanStep pfx) (b, bm)).2) := by
  induction entries with
  | nil => intro b bm; simp
  | cons e rest ih =>
    intro b bm
    have hstep : (e :: rest).foldl (scanStep pfx) (b, bm)
        = rest.foldl (scanStep pfx) (scanStep pfx (b, bm) e) :=
      List.foldl_cons ..
    by_cases hm : matchesOutput pfx e.name = true
    · cases hmt : e.mtime with
      | none =>
        have hacc : scanStep pfx (b, bm) e = (b, bm) := by
          simp [scanStep, hm, hmt]
        rw [hstep, hacc]
        obtain ⟨m1, m2, m3⟩ := ih b bm
        refine ⟨m1, ?_, ?_⟩
        · rcases m2 with h | ⟨u, hu, h⟩
          · exact Or.inl h
          · exact Or.inr ⟨u, List.mem_cons_of_mem e hu, h⟩
        · intro u hu hmu mt hmt2
          rcases List.mem_cons.mp hu with rfl | hu
          · rw [hmt] at hmt2; cases hmt2
          · exact m3 u hu hmu mt hmt2
      | some mt =>
        by_cases hgt : mt > bm
        · have hacc : scanStep pfx (b, bm) e = (some e.name, mt) := by
            simp [scanStep, hm, hmt, hgt]
          rw [hstep, hacc]
          obtain ⟨m1, m2, m3⟩ := ih (some e.name) mt
          refine ⟨le_trans (le_of_lt hgt) m1, ?_, ?_⟩
          · rcases m2 with ⟨h1, h2⟩ | ⟨u, hu, h⟩
            · exact Or.inr ⟨e, List.mem_cons_self e rest,
                h1, by rw [hmt, h2], hm⟩
            · exact Or.inr ⟨u, List.mem_cons_of_mem e hu, h⟩
          · intro u hu hmu mt2 hmt2
            rcases List.mem_cons.mp hu with rfl | hu
            · rw [hmt] at hmt2
              injection hmt2 with hh
              subst hh
              exact m1
            · exact m3 u hu hmu mt2 hmt2
        · have hacc : scanStep pfx (b, bm) e = (b, bm) := by
            simp [scanStep, hm, hmt, hgt]
          rw [hstep, hacc]
          obtain ⟨m1, m2, m3⟩ := ih b bm
          refine ⟨m1, ?_, ?_⟩
          · rcases m2 with h | ⟨u, hu, h⟩
            · exact Or.inl h
            · exact Or.inr ⟨u, List.mem_cons_of_mem e hu, h⟩
          · intro u hu hmu mt2 hmt2
            rcases List.mem_cons.mp hu with rfl | hu
            · rw [hmt] at hmt2
              injection hmt2 with hh
              subst hh
              push_neg at hgt
              exact le_trans hgt m1
            · exact m3 u hu hmu mt2 hmt2
    · have hacc : scanStep pfx (b, bm) e = (b, bm) := by
        simp [scanStep, hm]
      rw [hstep, hacc]
      obtain ⟨m1, m2, m3⟩ := ih b bm
      refine ⟨m1, ?_, ?_⟩
      · rcases m2 with h | ⟨u, hu, h⟩
        · exact Or.inl h
        · exact Or.inr ⟨u, List.mem_cons_of_mem e hu, h⟩
      · intro u hu hmu mt2 hmt2
        rcases List.mem_cons.mp hu with rfl | hu
        · exact absurd hmu hm
        · exact m3 u hu hmu mt2 hmt2

/-- C4 counterexample: the completed job's metadata reports a usable video
filename (`meta.mp4`, a recognized extension, under the expected node
`"13"`), yet the resolution step returns the directory-scan match — and the
same result with the metadata emptied — so metadata is never consulted,
refuting "only when that metadata is unusable does it fall back". -/
theorem resolveOutput_ignores_metadata_counterexample :
    resolveOutput ⟨[("13", [⟨"meta.mp4", "sub", "output"⟩])]⟩ true
        [⟨"job1_video-object-removal_00001.mp4", some 5⟩]
        "job1_video-object-removal"
      = Except.ok "job1_video-object-removal_00001.mp4" ∧
    resolveOutput ⟨[]⟩ true
        [⟨"job1_video-object-removal_00001.mp4", some 5⟩]
        "job1_video-object-removal"
      = Except.ok "job1_video-object-removal_00001.mp4" ∧
    strEnds (lowerStr "meta.mp4") ".mp4" = true ∧
    ("job1_video-object-removal_00001.mp4" == "meta.mp4") = false := by
  exact ⟨rfl, rfl, by decide, by decide⟩

/-- C4 amended: output resolution never consults the engine-reported
metadata — it always scans the known output directory for names with the
job's prefix and a `.mp4` suffix, returning a most-recently-modified match,
and raises a fatal error when the directory is missing or nothing
matches. -/
theorem resolveOutput_spec (h1 h2 : HistoryOutputs) (dirExists : Bool)
    (entries : List DirEntry) (pfx : String) :
    resolveOutput h1 dirExists entries pfx
      = resolveOutput h2 dirExists entries pfx ∧
    (dirExists = false →
      resolveOutput h1 dirExists entries pfx
        = Except.error "missing output dir") ∧
    ((∀ e ∈ entries, matchesOutput pfx e.name = true → e.mtime = none) →
      dirExists = true →
      resolveOutput h1 dirExists entries pfx
        = Except.error "no output mp4") ∧
    (∀ f, resolveOutput h1 dirExists entries pfx = Except.ok f →
      ∃ e ∈ entries, e.name = f ∧ matchesOutput pfx e.name = true ∧
        ∃ mt : Int, e.mtime = some mt ∧
          ∀ e2 ∈ entries, matchesOutput pfx e2.name = true →
            ∀ mt2 : Int, e2.mtime = some mt2 → mt2 ≤ mt) := by
  refine ⟨rfl, ?_, ?_, ?_⟩
  · intro h
    simp [resolveOutput, find_latest_output, h]
  · intro hall hdir
    obtain ⟨-, m2, -⟩ := scanFold_spec pfx entries none (-1)
    have hnone : (entries.foldl (scanStep pfx) (none, -1)).1 = none := by
      rcases m2 with ⟨h, -⟩ | ⟨u, hu, -, hmt, hmu⟩
      · exact h
      · rw [hall u hu hmu] at hmt; cases hmt
    simp [resolveOutput, find_latest_output, hdir, hnone]
  · intro f hok
    obtain ⟨-, m2, m3⟩ := scanFold_spec pfx entries none (-1)
    by_cases hdir : dirExists = false
    · simp [resolveOutput, find_latest_output, hdir] at hok
    · simp only [resolveOutput, find_latest_output, hdir, if_false] at hok
      rcases hfold : (entries.foldl (scanStep pfx) (none, -1)).1 with - | g
      · rw [hfold] at hok; cases hok
      · rw [hfold] at hok
        injection hok with hgf
        subst hgf
        rcases m2 with ⟨h, -⟩ | ⟨u, hu, hname, hmt, hmu⟩
        · rw [hfold] at h; cases h
        · rw [hfold] at hname
          injection hname with hn
          exact ⟨u, hu, hn.symm, hmu,
            (entries.foldl (scanStep pfx) (none, -1)).2, hmt,
            fun e2 he2 hm2 mt2 hmt2 => m3 e2 he2 hm2 mt2 hmt2⟩

/-- Witness for the amended C4: two matching files, the later-modified one
wins regardless of reported metadata; an empty directory is a fatal
error. -/
theorem resolveOutput_spec_witness :
    resolveOutput ⟨[("13", [⟨"meta.mp4", "sub", "output"⟩])]⟩ true
        [⟨"job1_video-object-removal_00001.mp4", some 5⟩,
         ⟨"job1_video-object-removal_00002.mp4", some 9⟩]
        "job1_video-object-removal"
      = resolveOutput ⟨[]⟩ true
        [⟨"job1_video-object-removal_00001.mp4", some 5⟩,
         ⟨"job1_video-object-removal_00002.mp4", some 9⟩]
        "job1_video-object-removal" ∧
    resolveOutput ⟨[]⟩ false [] "job1_video-object-removal"
      = Except.error "missing output dir" ∧
    (∃ e ∈ [DirEntry.mk "job1_video-object-removal_00001.mp4" (some 5),
            DirEntry.mk "job1_video-object-removal_00002.mp4" (some 9)],
      e.name = "job1_video-object-removal_00002.mp4" ∧
      matchesOutput "job1_video-object-removal" e.name = true ∧
      ∃ mt : Int, e.mtime = some mt ∧
        ∀ e2 ∈ [DirEntry.mk "job1_video-object-removal_00001.mp4" (some 5),
                DirEntry.mk "job1_video-object-removal_00002.mp4" (some 9)],
          matchesOutput "job1_video-object-removal" e2.name = true →
          ∀ mt2 : Int, e2.mtime = some mt2 → mt2 ≤ mt) := by
  refine ⟨(resolveOutput_spec ⟨[("13", [⟨"meta.mp4", "sub", "output"⟩])]⟩
      ⟨[]⟩ true
      [⟨"job1_video-object-removal_00001.mp4", some 5⟩,
       ⟨"job1_video-object-removal_00002.mp4", some 9⟩]
      "job1_video-object-removal").1,
    (resolveOutput_spec ⟨[]⟩ ⟨[]⟩ false [] "job1_video-object-removal").2.1
      rfl, ?_⟩
  exact (resolveOutput_spec ⟨[]⟩ ⟨[]⟩ true
      [⟨"job1_video-object-removal_00001.mp4", some 5⟩,
       ⟨"job1_video-object-removal_00002.mp4", some 9⟩]
      "job1_video-object-removal").2.2.2
    "job1_video-object-removal_00002.mp4" rfl

/-- C5 counterexample: an invocation whose working directory was created
but whose storage-client construction fails (missing configuration) exits
with that error and the cleanup flag false — an exit path on which the
job-scoped directory is not removed, refuting removal on every exit
path. -/
theorem handler_cleanup_counterexample :
    handlerRun ⟨false, true, true, true, true,
        [Tick.ok (some ⟨true, none⟩)], 3600, true,
        [⟨"job1_video-object-removal_00001.mp4", some 5⟩], true⟩
        "job1_video-object-removal"
      = (Except.error StageErr.configMissing, false) := rfl

/-- C5 amended: the working directory is removed on every exit path that
reaches the staged `try` block — success, any fatal stage error, and the
poll timeout — but the storage-client construction runs between directory
creation and the `try`, and its configuration failure exits without
removing the directory. -/
theorem handler_cleanup_after_try (env : RunEnv) (pfx : String)
    (h : env.s3ClientOk = true) : (handlerRun env pfx).2 = true := by
  unfold handlerRun
  rw [h]
  simp

/-- Witness for the amended C5: a failing download still reaches the
cleanup. -/
theorem handler_cleanup_after_try_witness :
    (handlerRun ⟨true, false, true, true, true, [], 3600, true, [], true⟩
        "job1-video-object-removal").2 = true :=
  handler_cleanup_after_try
    ⟨true, false, true, true, true, [], 3600, true, [], true⟩
    "job1-video-object-removal" rfl

end VOR
